import Mathlib

/-!
Verification of the MEXC 4h-RSI screener (`crypto_screener_mexc_rsi.py`).

The program's numeric pipeline (pandas float series) is embedded over `ℚ`
with exact arithmetic; `NaN` entries of a pandas series are embedded as
`Option.none`.  The scan orchestrator `run_scan` is embedded as a pure
function of the scan time, the persisted-state file, and the data returned
by the two HTTP endpoints; the uncaught-exception outcome is `Option.none`
on the whole scan.
-/

namespace Screener

/-- Configuration constant `RSI_PERIOD = 14`. -/
def RSI_PERIOD : ℕ := 14

/-- Configuration constant `RSI_OVERBOUGHT = 80.0`. -/
def RSI_OVERBOUGHT : ℚ := 80

/-- Configuration constant `TOP_N = 150`. -/
def TOP_N : ℕ := 150

/-!
### RSI engine (`calculate_rsi`)

`delta = series.diff()` has `NaN` at index 0; `delta.where(delta > 0, 0)`
replaces both the non-positive deltas and the leading `NaN` by `0`, so the
gain series is `0` at index 0 and `max (close[i] - close[i-1]) 0` afterwards
— it contains no `NaN`.  Likewise for the loss series.
-/

/-- `gain = delta.where(delta > 0, 0)` at index `i` (0 past the end). -/
def gainAt (closes : List ℚ) (i : ℕ) : ℚ :=
  if i = 0 then 0 else max (closes.getD i 0 - closes.getD (i - 1) 0) 0

/-- `loss = -delta.where(delta < 0, 0)` at index `i` (0 past the end). -/
def lossAt (closes : List ℚ) (i : ℕ) : ℚ :=
  if i = 0 then 0 else max (closes.getD (i - 1) 0 - closes.getD i 0) 0

/-- Recurrence of `Series.ewm(adjust=False).mean()` with smoothing factor
`α`: `y[0] = x[0]`, `y[i] = (1-α)*y[i-1] + α*x[i]`. -/
def ewmAt (α : ℚ) (x : ℕ → ℚ) : ℕ → ℚ
  | 0 => x 0
  | i + 1 => (1 - α) * ewmAt α x i + α * x (i + 1)

/-- `gain.ewm(com=period-1, adjust=False).mean()` at index `i`:
`com = period - 1` gives `α = 1/period`. -/
def avg_gain (closes : List ℚ) (period : ℕ) (i : ℕ) : ℚ :=
  ewmAt (1 / (period : ℚ)) (gainAt closes) i

/-- `loss.ewm(com=period-1, adjust=False).mean()` at index `i`. -/
def avg_loss (closes : List ℚ) (period : ℕ) (i : ℕ) : ℚ :=
  ewmAt (1 / (period : ℚ)) (lossAt closes) i

/-- One entry of `calculate_rsi`: `NaN` (= `none`) while fewer than
`min_periods = period` observations have accumulated (the gain/loss series
have no `NaN`, so that is exactly `i + 1 < period`) or past the series end;
otherwise `rs = avg_gain/avg_loss` and `rsi = 100 - 100/(1+rs)` with float
semantics: `g/0 = +∞` for `g > 0` (so `rsi = 100`), `0/0 = NaN`. -/
def rsiAt (closes : List ℚ) (period : ℕ) (i : ℕ) : Option ℚ :=
  if i + 1 < period ∨ closes.length ≤ i then none
  else
    let g := avg_gain closes period i
    let l := avg_loss closes period i
    if l = 0 then (if 0 < g then some 100 else none)
    else some (100 - 100 / (1 + g / l))

/-- `calculate_rsi(series, period)`: the RSI series, aligned with the input. -/
def calculate_rsi (closes : List ℚ) (period : ℕ) : List (Option ℚ) :=
  (List.range closes.length).map (rsiAt closes period)

/-- `rsi_series.iloc[-1]` as used in `run_scan` (the series is nonempty on
every reachable path, `get_4h_klines` having required ≥ 24 candles). -/
def latestRsi (closes : List ℚ) (period : ℕ) : Option ℚ :=
  rsiAt closes period (closes.length - 1)

/-!
### State management (`load_state` / `save_state`)

The persisted file `state.json` is embedded as a `StateFile`: missing,
unparseable, or a valid record `{last_reset_time, alerted_symbols}`.
-/

/-- The persisted dedup record: `{"last_reset_time": ..., "alerted_symbols": [...]}`. -/
structure DedupState where
  last_reset_time : ℚ
  alerted_symbols : List String
deriving DecidableEq, Repr

/-- The on-disk `state.json`: absent, present but unparseable, or valid. -/
inductive StateFile
  | missing
  | corrupt
  | valid (st : DedupState)
deriving DecidableEq, Repr

/-- `load_state()`: `None` when the file does not exist, `None` when reading
or parsing raises (caught), otherwise the parsed record. -/
def load_state : StateFile → Option DedupState
  | .missing => none
  | .corrupt => none
  | .valid st => some st

/-!
### Universe and kline fetch (`get_futures_tickers` / `get_4h_klines`)

An HTTP response is embedded as the data the orchestrator extracts from it:
for a ticker, `symbol` (`ticker.get("symbol")`, `none` when the key is
absent) and `amount24`; the per-symbol kline fetch outcome is attached as
`klines` (`none` = request failure or `success`/`data` falsy, `some closes`
= the close column after sorting by `open_time`).
-/

/-- One element of the ticker-endpoint response, together with the outcome
of the subsequent kline fetch for that symbol. -/
structure TickerData where
  symbol : Option String
  amount24 : ℚ
  klines : Option (List ℚ)
deriving DecidableEq, Repr

/-- `get_futures_tickers()`: on any exception return `[]`; otherwise keep the
`_USDT` symbols, sort by `amount24` descending, and take the top `TOP_N`. -/
def get_futures_tickers (response : Option (List TickerData)) : List TickerData :=
  match response with
  | none => []
  | some tickers =>
      ((tickers.filter fun t => (t.symbol.getD "").endsWith "_USDT").mergeSort
        fun a b => b.amount24 ≤ a.amount24).take TOP_N

/-- `get_4h_klines(symbol)`: `None` on failure, `None` when fewer than
`RSI_PERIOD + 10` candles came back, otherwise the sorted close series. -/
def get_4h_klines (raw : Option (List ℚ)) : Option (List ℚ) :=
  match raw with
  | none => none
  | some closes => if closes.length < RSI_PERIOD + 10 then none else some closes

/-!
### Main scan (`run_scan`)
-/

/-- The hit-collection loop of `run_scan`: skip tickers with a falsy symbol,
skip symbols whose kline fetch failed, skip a `NaN` latest RSI, and record a
hit when the latest RSI exceeds `RSI_OVERBOUGHT`.  Only the symbol of the
`alert_data` record participates in dedup and notification identity. -/
def scanHits (tickers : List TickerData) : List String :=
  tickers.filterMap fun t =>
    match t.symbol with
    | none => none
    | some symbol =>
      if symbol = "" then none
      else
        match get_4h_klines t.klines with
        | none => none
        | some closes =>
          match latestRsi closes RSI_PERIOD with
          | none => none
          | some r => if RSI_OVERBOUGHT < r then some symbol else none

/-- `is_reset` after the two assignments in `run_scan`:
`is_reset = (current_hour % 4 == 0)`, then forced to `True` when
`load_state()` returned `None`. -/
def is_window_boundary (hour : ℕ) (state : Option DedupState) : Bool :=
  (hour % 4 == 0) || state.isNone

/-- What a single `run_scan` did: the symbols for which a Telegram send was
attempted, and the state written by `save_state` (`none` = no write, the
file is left untouched). -/
structure ScanOutcome where
  notified : List String
  written : Option DedupState
deriving DecidableEq, Repr

/-- `run_scan()` as a function of the scan time (`hour = now.hour`,
`nowTs = now.timestamp()`), the state file, and the fetched universe.
Result `none` embeds an uncaught exception: the only fallible spot is
`state.get("alerted_symbols", [])` on the non-reset branch, which
dereferences `state`. -/
def run_scan (hour : ℕ) (nowTs : ℚ) (file : StateFile)
    (tickers : List TickerData) : Option ScanOutcome :=
  let state := load_state file
  let is_reset := is_window_boundary hour state
  if tickers.isEmpty then
    some { notified := [], written := none }
  else
    let hits := scanHits tickers
    if hits.isEmpty then
      some { notified := [],
             written := if is_reset then some ⟨nowTs, []⟩ else none }
    else
      let alert? : Option (List String) :=
        if is_reset then some hits
        else
          match state with
          | some st => some (hits.filter fun s => !(st.alerted_symbols.contains s))
          | none => none
      match alert? with
      | none => none
      | some alert_hits =>
        some { notified := alert_hits,
               written := if is_reset then some ⟨nowTs, hits⟩ else none }

/-- The state file after a scan: replaced by the written record when
`save_state` ran, unchanged otherwise. -/
def fileAfter (file : StateFile) (o : ScanOutcome) : StateFile :=
  match o.written with
  | some st => .valid st
  | none => file

/-!
### The two smoothing conventions, as worded by the design document

These two definitions follow the specification's words, not the source, so
that the source's `calculate_rsi` can be compared against each.
-/

/-- Convention A seed: the simple mean of the first `period` gains (the
gains at indices `1, …, period`, deltas being defined from index 1). -/
def convA_seed_gain (closes : List ℚ) (period : ℕ) : ℚ :=
  (((List.range period).map fun k => gainAt closes (k + 1)).sum) / (period : ℚ)

/-- Convention A recurrence for the average gain, indexed by the offset
`j = i - period` from the seed index:
`average_gain[i] = (average_gain[i-1]*(period-1) + gain[i]) / period`. -/
def convA_rec_gain (closes : List ℚ) (period : ℕ) : ℕ → ℚ
  | 0 => convA_seed_gain closes period
  | j + 1 =>
      (convA_rec_gain closes period j * ((period : ℚ) - 1)
        + gainAt closes (period + j + 1)) / (period : ℚ)

/-- Convention A average gain: undefined below index `period`, the simple
mean of the first `period` gains at index `period`, then the Wilder
recurrence. -/
def conventionA_avg_gain (closes : List ℚ) (period i : ℕ) : Option ℚ :=
  if i < period then none else some (convA_rec_gain closes period (i - period))

/-- Convention B average gain: a geometric (exponentially weighted) moving
average with smoothing factor equivalent to center-of-mass `period - 1`,
applied from the first sample, without a distinct seed step — written in
closed form: `α = 1/(1 + (period-1))`,
`y[i] = (1-α)^i·gain[0] + Σ_{k<i} α·(1-α)^(i-1-k)·gain[k+1]`. -/
def conventionB_avg_gain (closes : List ℚ) (period i : ℕ) : ℚ :=
  let α : ℚ := 1 / (1 + ((period : ℚ) - 1))
  (1 - α) ^ i * gainAt closes 0
    + ∑ k ∈ Finset.range i, α * (1 - α) ^ (i - 1 - k) * gainAt closes (k + 1)

/-- Convention B average loss, same closed form over the loss series. -/
def conventionB_avg_loss (closes : List ℚ) (period i : ℕ) : ℚ :=
  let α : ℚ := 1 / (1 + ((period : ℚ) - 1))
  (1 - α) ^ i * lossAt closes 0
    + ∑ k ∈ Finset.range i, α * (1 - α) ^ (i - 1 - k) * lossAt closes (k + 1)

/-!
### Helper lemmas
-/

/-- Closed form of the `adjust=False` exponential-smoothing recurrence. -/
lemma ewmAt_closed_form (α : ℚ) (x : ℕ → ℚ) (i : ℕ) :
    ewmAt α x i =
      (1 - α) ^ i * x 0
        + ∑ k ∈ Finset.range i, α * (1 - α) ^ (i - 1 - k) * x (k + 1) := by
  induction i with
  | zero => simp [ewmAt]
  | succ n ih =>
    rw [ewmAt, ih, Finset.sum_range_succ, mul_add, Finset.mul_sum]
    have h1 : ∀ k ∈ Finset.range n,
        (1 - α) * (α * (1 - α) ^ (n - 1 - k) * x (k + 1))
          = α * (1 - α) ^ (n + 1 - 1 - k) * x (k + 1) := by
      intro k hk
      have hk' : k < n := Finset.mem_range.mp hk
      have he : n + 1 - 1 - k = (n - 1 - k) + 1 := by omega
      rw [he, pow_succ]
      ring
    rw [Finset.sum_congr rfl h1]
    have he0 : n + 1 - 1 - n = 0 := by omega
    rw [he0, pow_succ, pow_zero]
    ring

/-- The exponential smoothing of a pointwise-nonnegative series is
nonnegative whenever `0 ≤ α ≤ 1`. -/
lemma ewmAt_nonneg {α : ℚ} (h0 : 0 ≤ α) (h1 : α ≤ 1) {x : ℕ → ℚ}
    (hx : ∀ j, 0 ≤ x j) (i : ℕ) : 0 ≤ ewmAt α x i := by
  induction i with
  | zero => exact hx 0
  | succ n ih =>
    have ha : 0 ≤ 1 - α := by linarith
    have := mul_nonneg ha ih
    have := mul_nonneg h0 (hx (n + 1))
    simpa [ewmAt] using by linarith

/-- Gains are nonnegative at every index. -/
lemma gainAt_nonneg (closes : List ℚ) (i : ℕ) : 0 ≤ gainAt closes i := by
  unfold gainAt
  split
  · exact le_refl 0
  · exact le_max_right _ _

/-- Losses are nonnegative at every index. -/
lemma lossAt_nonneg (closes : List ℚ) (i : ℕ) : 0 ≤ lossAt closes i := by
  unfold lossAt
  split
  · exact le_refl 0
  · exact le_max_right _ _

/-- For a positive period the smoothed average gain is nonnegative. -/
lemma avg_gain_nonneg (closes : List ℚ) {period : ℕ} (hp : 0 < period)
    (i : ℕ) : 0 ≤ avg_gain closes period i := by
  have hp' : (1 : ℚ) ≤ (period : ℚ) := by exact_mod_cast hp
  refine ewmAt_nonneg ?_ ?_ (gainAt_nonneg closes) i
  · positivity
  · rw [div_le_one (by linarith)]
    linarith

/-- For a positive period the smoothed average loss is nonnegative. -/
lemma avg_loss_nonneg (closes : List ℚ) {period : ℕ} (hp : 0 < period)
    (i : ℕ) : 0 ≤ avg_loss closes period i := by
  have hp' : (1 : ℚ) ≤ (period : ℚ) := by exact_mod_cast hp
  refine ewmAt_nonneg ?_ ?_ (lossAt_nonneg closes) i
  · positivity
  · rw [div_le_one (by linarith)]
    linarith

/-- `run_scan` never raises: every branch yields an outcome. -/
lemma run_scan_isSome (hour : ℕ) (ts : ℚ) (file : StateFile)
    (tickers : List TickerData) : (run_scan hour ts file tickers).isSome := by
  unfold run_scan
  cases hq : (hour % 4 == 0) <;> cases hf : load_state file <;>
    simp only [is_window_boundary, hq, hf, Option.isNone_none, Option.isNone_some,
      Bool.or_true, Bool.or_false, Bool.true_or, Bool.false_or,
      if_true, if_false, Bool.false_eq_true, Bool.true_eq_false] <;>
    split <;> simp <;> split <;> simp

/-- On a boundary scan that got a nonempty universe, the written state is
`{last_reset_time := now, alerted_symbols := all current hits}` — also when
the hit set is empty. -/
lemma run_scan_boundary_written (hour : ℕ) (ts : ℚ) (file : StateFile)
    (tickers : List TickerData)
    (hb : is_window_boundary hour (load_state file) = true)
    (ht : tickers ≠ []) :
    ∃ notified, run_scan hour ts file tickers
      = some ⟨notified, some ⟨ts, scanHits tickers⟩⟩ := by
  cases tickers with
  | nil => exact absurd rfl ht
  | cons a l =>
    unfold run_scan
    simp only [hb, if_true, List.isEmpty_cons, Bool.false_eq_true, if_false]
    by_cases hh : (scanHits (a :: l)).isEmpty
    · refine ⟨[], ?_⟩
      rw [List.isEmpty_iff] at hh
      simp [hh]
    · refine ⟨scanHits (a :: l), ?_⟩
      simp [hh]

/-- On a non-boundary scan (state loaded, hour not divisible by 4) the
outcome is: notify the hits not in `alerted_symbols`, write nothing. -/
lemma run_scan_nonboundary (hour : ℕ) (ts : ℚ) (file : StateFile)
    (st : DedupState) (tickers : List TickerData)
    (hs : load_state file = some st) (hh : hour % 4 ≠ 0) :
    run_scan hour ts file tickers =
      some ⟨(scanHits tickers).filter
              (fun s => !(st.alerted_symbols.contains s)), none⟩ := by
  have hb : is_window_boundary hour (some st) = false := by
    simp [is_window_boundary, hh]
  cases tickers with
  | nil => simp [run_scan, scanHits, hs, hb]
  | cons a l =>
    unfold run_scan
    simp only [hs, hb, List.isEmpty_cons, Bool.false_eq_true, if_false]
    by_cases hhe : (scanHits (a :: l)).isEmpty
    · rw [List.isEmpty_iff] at hhe
      simp [hhe, hb]
    · simp [hhe, hb]

/-!
### Claim theorems
-/

/-- C2: Boundary reseeding — on every boundary scan that obtained a
universe, the persisted state after the scan has `alerted_symbols` equal to
exactly the symbols of the full current hit set (not just the eligible
subset) and `last_reset_time` equal to the scan time; when the hit set is
empty the state is still written, with an empty notified set and the
advanced window start. -/
theorem boundary_reseeding (hour : ℕ) (ts : ℚ) (file : StateFile)
    (tickers : List TickerData)
    (hb : is_window_boundary hour (load_state file) = true)
    (ht : tickers ≠ []) :
    ∃ o, run_scan hour ts file tickers = some o ∧
      o.written = some ⟨ts, scanHits tickers⟩ := by
  obtain ⟨n, h⟩ := run_scan_boundary_written hour ts file tickers hb ht
  exact ⟨_, h, rfl⟩

/-- C2 witness: a first-ever boundary scan (missing state file) over a
universe whose single ticker has no symbol writes
`{last_reset_time := 0, alerted_symbols := []}`. -/
theorem boundary_reseeding_witness :
    ∃ o, run_scan 0 0 .missing [⟨none, 0, none⟩] = some o ∧
      o.written = some ⟨0, scanHits [⟨none, 0, none⟩]⟩ :=
  boundary_reseeding 0 0 .missing [⟨none, 0, none⟩] rfl (by simp)

/-- C5: Non-boundary frame — on every non-boundary scan the persisted dedup
state is left untouched (no write occurs), whatever the hit set is. -/
theorem nonboundary_frame (hour : ℕ) (ts : ℚ) (file : StateFile)
    (tickers : List TickerData)
    (hb : is_window_boundary hour (load_state file) = false) :
    ∃ o, run_scan hour ts file tickers = some o ∧ o.written = none := by
  simp only [is_window_boundary, Bool.or_eq_false_iff, beq_eq_false_iff_ne,
    ne_eq, Option.isNone_eq_false_iff, Option.isSome_iff_exists] at hb
  obtain ⟨hh, st, hs⟩ := hb
  exact ⟨_, run_scan_nonboundary hour ts file st tickers hs hh, rfl⟩

/-- C5 witness: an hour-1 scan with a valid loaded state writes nothing. -/
theorem nonboundary_frame_witness :
    ∃ o, run_scan 1 0 (.valid ⟨0, []⟩) [] = some o ∧ o.written = none :=
  nonboundary_frame 1 0 (.valid ⟨0, []⟩) [] rfl

/-- C6: Boundary determination — `is_reset` is true exactly when the hour
is divisible by 4 or no valid prior state exists; a missing or unparseable
state file forces a reset and never aborts the scan. -/
theorem boundary_determination (hour : ℕ) (ts : ℚ) (file : StateFile)
    (tickers : List TickerData) :
    (is_window_boundary hour (load_state file) = true ↔
      hour % 4 = 0 ∨ load_state file = none) ∧
    (load_state file = none →
      is_window_boundary hour (load_state file) = true ∧
      (run_scan hour ts file tickers).isSome) := by
  constructor
  · simp [is_window_boundary, Option.isNone_iff_eq_none]
  · intro h
    exact ⟨by simp [is_window_boundary, h], run_scan_isSome hour ts file tickers⟩

/-- C6 witness: with an unparseable state file at a non-aligned hour the
scan is a forced reset and completes. -/
theorem boundary_determination_witness :
    is_window_boundary 1 (load_state .corrupt) = true ∧
    (run_scan 1 0 .corrupt []).isSome :=
  (boundary_determination 1 0 .corrupt []).2 rfl

/-- C9: Universe fetch failure atomicity — when the ticker fetch raised
(`get_futures_tickers` returns `[]`), the scan exits with no notification
attempted and no state write. -/
theorem universe_fetch_atomicity (hour : ℕ) (ts : ℚ) (file : StateFile) :
    get_futures_tickers none = [] ∧
    run_scan hour ts file (get_futures_tickers none) = some ⟨[], none⟩ :=
  ⟨rfl, rfl⟩

/-- C10: Non-boundary null-safety — `run_scan` never hits the
`state.get("alerted_symbols")` dereference with `state = None`: every scan
produces an outcome, and a `None` load forces the boundary path. -/
theorem nonboundary_null_safety (hour : ℕ) (ts : ℚ) (file : StateFile)
    (tickers : List TickerData) :
    (run_scan hour ts file tickers).isSome ∧
    (load_state file = none →
      is_window_boundary hour (load_state file) = true) := by
  exact ⟨run_scan_isSome hour ts file tickers,
    fun h => by simp [is_window_boundary, h]⟩

/-- C10 witness: a missing state file at a non-aligned hour still yields an
outcome, on the boundary path. -/
theorem nonboundary_null_safety_witness :
    (run_scan 3 0 .missing []).isSome ∧
    is_window_boundary 3 (load_state .missing) = true :=
  ⟨(nonboundary_null_safety 3 0 .missing []).1,
    (nonboundary_null_safety 3 0 .missing []).2 rfl⟩

/-- A strictly increasing 24-candle close series: enough history, all
losses zero, so the latest RSI is exactly 100. -/
def closesX : List ℚ :=
  [0, 1, 2, 3, 4, 5, 6, 7, 8, 9, 10, 11, 12, 13, 14, 15, 16, 17, 18, 19,
   20, 21, 22, 23]

/-- A ticker for symbol `X_USDT` whose kline fetch returned `closesX`. -/
def tX : TickerData := ⟨some "X_USDT", 1000, some closesX⟩

/-- Scanning the one-ticker universe `[tX]` yields the hit `X_USDT`. -/
lemma scanHits_tX : scanHits [tX] = ["X_USDT"] := by
  norm_num [scanHits, tX, get_4h_klines, closesX, RSI_PERIOD, latestRsi, rsiAt,
    avg_gain, avg_loss, ewmAt, gainAt, lossAt, RSI_OVERBOUGHT,
    List.filterMap_cons, List.filterMap_nil]
  decide

/-- C1 counterexample : two consecutive non-boundary scans (hours 1 and 2)
that both observe the hit set `{X_USDT}` against the persisted state
`{last_reset_time := 0, alerted_symbols := []}`: the first scan notifies
`X_USDT` and writes nothing (so the second scan reads the same state), and
the second scan's eligible-hit set is again `[X_USDT]`, not empty. -/
theorem dedup_idempotence_counterexample :
    is_window_boundary 1 (load_state (.valid ⟨0, []⟩)) = false ∧
    run_scan 1 1 (.valid ⟨0, []⟩) [tX] = some ⟨["X_USDT"], none⟩ ∧
    fileAfter (.valid ⟨0, []⟩) ⟨["X_USDT"], none⟩ = .valid ⟨0, []⟩ ∧
    is_window_boundary 2 (load_state (.valid ⟨0, []⟩)) = false ∧
    run_scan 2 2 (.valid ⟨0, []⟩) [tX] = some ⟨["X_USDT"], none⟩ ∧
    (["X_USDT"] : List String) ≠ [] := by
  refine ⟨rfl, ?_, rfl, rfl, ?_, by simp⟩
  · have h := run_scan_nonboundary 1 1 (.valid ⟨0, []⟩) ⟨0, []⟩ [tX] rfl (by decide)
    rw [scanHits_tX] at h
    simpa using h
  · have h := run_scan_nonboundary 2 2 (.valid ⟨0, []⟩) ⟨0, []⟩ [tX] rfl (by decide)
    rw [scanHits_tX] at h
    simpa using h

/-- C1 amended: when the first of the two consecutive scans is a boundary
scan (so the full hit set is persisted) and the second is non-boundary,
identical hit sets make the second scan's eligible-hit set empty. -/
theorem dedup_idempotence_after_boundary
    (hour1 hour2 : ℕ) (ts1 ts2 : ℚ) (file : StateFile)
    (tickers1 tickers2 : List TickerData)
    (hb : is_window_boundary hour1 (load_state file) = true)
    (ht : tickers1 ≠ [])
    (hh : hour2 % 4 ≠ 0)
    (hsame : scanHits tickers2 = scanHits tickers1) :
    ∃ o1 o2, run_scan hour1 ts1 file tickers1 = some o1 ∧
      run_scan hour2 ts2 (fileAfter file o1) tickers2 = some o2 ∧
      o2.notified = [] := by
  obtain ⟨n, h1⟩ := run_scan_boundary_written hour1 ts1 file tickers1 hb ht
  refine ⟨_, _, h1, run_scan_nonboundary hour2 ts2
    (.valid ⟨ts1, scanHits tickers1⟩) ⟨ts1, scanHits tickers1⟩ tickers2 rfl hh, ?_⟩
  simp only [hsame]
  rw [List.filter_eq_nil_iff]
  intro a ha
  simp [ha]

/-- C1 amended witness: boundary scan at hour 0 over `[tX]`, then a
non-boundary scan at hour 1 over the same universe notifies nothing. -/
theorem dedup_idempotence_after_boundary_witness :
    ∃ o1 o2, run_scan 0 0 .missing [tX] = some o1 ∧
      run_scan 1 1 (fileAfter .missing o1) [tX] = some o2 ∧
      o2.notified = [] :=
  dedup_idempotence_after_boundary 0 1 0 1 .missing [tX] [tX] rfl
    (by simp) (by decide) rfl

/-- C3 counterexample: at the concrete series `[0,1,2,3]` with `period = 2`
the engine's smoothed average gain at index 2 is `3/4` (no simple-mean seed)
while Convention A's is `1`; `calculate_rsi` takes no convention argument,
so Convention A is not available to the caller at any configuration of its
actual parameter `period`. -/
theorem convention_choice_counterexample :
    avg_gain [0, 1, 2, 3] 2 2 = 3 / 4 ∧
    conventionA_avg_gain [0, 1, 2, 3] 2 2 = some 1 ∧
    (3 / 4 : ℚ) ≠ 1 := by
  refine ⟨?_, ?_, by norm_num⟩
  · norm_num [avg_gain, ewmAt, gainAt]
  · norm_num [conventionA_avg_gain, convA_rec_gain, convA_seed_gain, gainAt,
      List.range_succ]

/-- C3 amended: the engine's smoothing is fixed — for every series, period
and index, the code's average gain and loss coincide with Convention B
(pure exponential smoothing, center of mass `period - 1`, no seed step);
the only configuration the caller controls is `period`. -/
theorem convention_fixed_to_B (closes : List ℚ) (period i : ℕ) :
    avg_gain closes period i = conventionB_avg_gain closes period i ∧
    avg_loss closes period i = conventionB_avg_loss closes period i := by
  have hα : 1 / (1 + ((period : ℚ) - 1)) = 1 / (period : ℚ) := by ring_nf
  constructor
  · rw [avg_gain, conventionB_avg_gain, ewmAt_closed_form, hα]
  · rw [avg_loss, conventionB_avg_loss, ewmAt_closed_form, hα]

/-- C4: zero-division edge cases — at any index where the averages are
live (enough observations, inside the series) with zero average loss: a
positive average gain gives exactly RSI 100, and a zero average gain gives
an undefined (absent) RSI, never 0 and never 100. -/
theorem rsi_zero_division (closes : List ℚ) (period i : ℕ)
    (hp : period ≤ i + 1) (hi : i < closes.length)
    (hl : avg_loss closes period i = 0) :
    (0 < avg_gain closes period i → rsiAt closes period i = some 100) ∧
    (avg_gain closes period i = 0 → rsiAt closes period i = none) := by
  have hg : ¬(i + 1 < period ∨ closes.length ≤ i) := by omega
  constructor
  · intro h
    rw [rsiAt, if_neg hg]
    simp [hl, h]
  · intro h
    rw [rsiAt, if_neg hg]
    simp [hl, h]

/-- C4 witness: the two-point rising series `[0,1]` with `period = 1` has
zero average loss and positive average gain at index 1, and RSI exactly
100 there. -/
theorem rsi_zero_division_witness : rsiAt [0, 1] 1 1 = some 100 :=
  (rsi_zero_division [0, 1] 1 1 (by norm_num) (by norm_num)
      (by norm_num [avg_loss, ewmAt, lossAt])).1
    (by norm_num [avg_gain, ewmAt, gainAt])

/-- C7 counterexample: the series `[1,2]` has exactly `period = 2` closes
(length not greater than the period), yet the RSI at index 1 is defined —
it is `100`, not an absence. -/
theorem insufficient_data_counterexample :
    ([(1 : ℚ), 2].length ≤ 2) ∧ rsiAt [1, 2] 2 1 = some 100 := by
  refine ⟨by norm_num, ?_⟩
  norm_num [rsiAt, avg_gain, avg_loss, ewmAt, gainAt, lossAt]

/-- C7 amended: for every series with fewer than `period` closes the RSI at
every index is undefined, communicated as an absence, never an exception. -/
theorem insufficient_data (closes : List ℚ) (period i : ℕ)
    (h : closes.length < period) : rsiAt closes period i = none := by
  rw [rsiAt, if_pos]
  omega

/-- C7 amended witness: one close fewer than the period gives an undefined
RSI everywhere. -/
theorem insufficient_data_witness : rsiAt [1, 2] 3 0 = none :=
  insufficient_data [1, 2] 3 0 (by norm_num)

/-- C8: every defined RSI value lies in `[0, 100]` (for any positive
period and any input series, increasing or decreasing included). -/
theorem rsi_range (closes : List ℚ) (period i : ℕ) (hp : 0 < period)
    (v : ℚ) (hv : rsiAt closes period i = some v) :
    0 ≤ v ∧ v ≤ 100 := by
  rw [rsiAt] at hv
  by_cases hg : i + 1 < period ∨ closes.length ≤ i
  · rw [if_pos hg] at hv
    exact absurd hv (by simp)
  · rw [if_neg hg] at hv
    simp only at hv
    have hg0 : 0 ≤ avg_gain closes period i := avg_gain_nonneg closes hp i
    have hl0 : 0 ≤ avg_loss closes period i := avg_loss_nonneg closes hp i
    by_cases hl : avg_loss closes period i = 0
    · rw [if_pos hl] at hv
      by_cases hgp : 0 < avg_gain closes period i
      · rw [if_pos hgp] at hv
        obtain rfl : (100 : ℚ) = v := by injection hv
        norm_num
      · rw [if_neg hgp] at hv
        exact absurd hv (by simp)
    · rw [if_neg hl] at hv
      have hlpos : 0 < avg_loss closes period i := lt_of_le_of_ne hl0 (Ne.symm hl)
      have hr : 0 ≤ avg_gain closes period i / avg_loss closes period i :=
        div_nonneg hg0 hlpos.le
      have h2 : (0 : ℚ) < 1 + avg_gain closes period i / avg_loss closes period i := by
        linarith
      have hd1 : 100 / (1 + avg_gain closes period i / avg_loss closes period i) ≤ 100 := by
        rw [div_le_iff₀ h2]
        nlinarith
      have hd0 : 0 ≤ 100 / (1 + avg_gain closes period i / avg_loss closes period i) := by
        positivity
      obtain rfl : 100 - 100 / (1 + avg_gain closes period i / avg_loss closes period i) = v := by
        injection hv
      constructor <;> linarith

/-- C8 witness: the strictly decreasing series `[3,2,1]` with `period = 1`
has RSI 0 at index 2, and 0 lies in `[0, 100]`. -/
theorem rsi_range_witness : (0 : ℚ) ≤ 0 ∧ (0 : ℚ) ≤ 100 :=
  rsi_range [3, 2, 1] 1 2 (by norm_num) 0
    (by norm_num [rsiAt, avg_gain, avg_loss, ewmAt, gainAt, lossAt])

end Screener
